import Mathlib

/-!
Verification of the channel engine of the JBclone soldering-station firmware.

The C++ sources are shallowly embedded: `float` arithmetic is modelled by
exact rational arithmetic (`ℚ`), machine timestamps (`uint32_t` from
`micros()`/`millis()`) by `ℕ`, and GPIO levels by `Bool` (`true` = HIGH).
Each definition mirrors one function of the source tree
(`lib/Heater/*.cpp`, `zero_cross.h`, `Serial_controls.h`, `parser.cpp`).
-/

namespace JBclone

/-- `ADC_RES` from `Hardware.h`: `constexpr float ADC_RES = 4096.0f`. -/
def ADC_RES : ℚ := 4096

/-- `ADC_VREF` from `Hardware.h`: `constexpr float ADC_VREF = 3.3f`. -/
def ADC_VREF : ℚ := 33 / 10

/-- `_zero_cross_period` from `Hardware.h` (N = 10 half cycles). -/
def zero_cross_period : ℕ := 10

/-- `_tc_amp_recovery_time` from `Hardware.h` (1700 µs). -/
def tc_amp_recovery_time : ℕ := 1700

/-- `_pid_output_min` member constant of `Heater` (0.0f). -/
def pid_output_min : ℚ := 0

/-- `_pid_output_max` member constant of `Heater` (1.0f). -/
def pid_output_max : ℚ := 1

/-- Arduino's `constrain(amt, low, high)` macro:
`((amt)<(low)?(low):((amt)>(high)?(high):(amt)))`. -/
def constrain (amt low high : ℚ) : ℚ :=
  if amt < low then low else if amt > high then high else amt

/-- One linear-interpolation step shared by both lookup directions of
`cal_table.cpp`: `slope = (y2 - y1) / (x2 - x1); y1 + slope * (x - x1)`. -/
def interp (x1 y1 x2 y2 x : ℚ) : ℚ :=
  y1 + (y2 - y1) / (x2 - x1) * (x - x1)

/-- The in-range search loop of `Heater::tcv_to_temp` / `Heater::temp_to_tcv`
(`for (int i = 1; i < 10; ++i) if (x < X[i]) { interpolate; break; }`),
written with explicit fuel (`fuel = 10 - i` at entry) so it is structural.
The `0` returned when the fuel runs out or `i` leaves the table corresponds
to the loop falling through with the result still `NAN`; the callers only
enter the loop for strictly in-range queries, for which index 9 always
terminates the search. -/
def lut_loop (X Y : Fin 10 → ℚ) (x : ℚ) : ℕ → ℕ → ℚ
  | _, 0 => 0
  | i, fuel + 1 =>
    if h : i < 10 then
      if x < X ⟨i, h⟩ then
        interp (X ⟨i - 1, by omega⟩) (Y ⟨i - 1, by omega⟩) (X ⟨i, h⟩) (Y ⟨i, h⟩) x
      else
        lut_loop X Y x (i + 1) fuel
    else 0

/-- The common shape of `Heater::tcv_to_temp` and `Heater::temp_to_tcv`
(`cal_table.cpp`): at or below the first axis entry extrapolate with the
slope of points 0→1, at or above the last with the slope of points 8→9,
otherwise interpolate inside the first segment whose upper endpoint
exceeds the query.  `X` is the query axis, `Y` the result axis. -/
def lin_lookup (X Y : Fin 10 → ℚ) (x : ℚ) : ℚ :=
  if x ≤ X 0 then
    interp (X 0) (Y 0) (X 1) (Y 1) x
  else if x ≥ X 9 then
    interp (X 8) (Y 8) (X 9) (Y 9) x
  else
    lut_loop X Y x 1 9

/-- `Heater::tcv_to_temp(v)`: table column 0 is voltage (µV), column 1 is
temperature (°C). -/
def tcv_to_temp (tbl : Fin 10 → ℚ × ℚ) (v : ℚ) : ℚ :=
  lin_lookup (fun i => (tbl i).1) (fun i => (tbl i).2) v

/-- `Heater::temp_to_tcv(temp)`: same procedure with the axes swapped. -/
def temp_to_tcv (tbl : Fin 10 → ℚ × ℚ) (temp : ℚ) : ℚ :=
  lin_lookup (fun i => (tbl i).2) (fun i => (tbl i).1) temp

/-- The mutable state of one `Heater` object (`Heater.h`), together with the
level of its heater-drive GPIO (`true` = HIGH).  Field names follow the
source, typos included. -/
structure HeaterState where
  temp_sp_min : ℚ
  temp_sp_max : ℚ
  temp_runaway_threshold : ℚ
  temp_sp : ℚ
  temp_pv : ℚ
  tc_cal_table : Fin 10 → ℚ × ℚ
  tc_max_voltage_setpoint : ℚ
  tc_gain : ℚ
  pid_kp : ℚ
  pid_ki : ℚ
  pid_integral : ℚ
  pid_kd : ℚ
  pid_derivative_prev_e_t : ℚ
  pid_derivative_filter_tau : ℚ
  pid_TCvoltage_sp : ℚ
  pid_output : ℚ
  sample_scheduled : Bool
  sample_Schedule_timestamp : ℕ
  pid_TCvoltsge_pv_old_timestamp : ℕ
  pid_TCvoltage_pv_timestamp : ℕ
  pid_TCvoltage_pv : ℚ
  pid_update_pending : Bool
  enable : Bool
  sleep_delay_start_time : ℕ
  sleep_delay_running : Bool
  sleep_delay : ℚ
  sleep_state : Bool
  sleep_TCvoltage_set : ℚ
  heater_pin : Bool
  deriving DecidableEq

/-- `Heater::pid_reset()` (`pid.cpp`). -/
def pid_reset (h : HeaterState) : HeaterState :=
  { h with
    pid_integral := 0
    pid_derivative_prev_e_t := h.pid_TCvoltage_pv
    pid_update_pending := false
    pid_output := 0
    pid_TCvoltsge_pv_old_timestamp := 0
    pid_TCvoltage_pv_timestamp := 0 }

/-- `Heater::update_output(op_level)` (`Heater.cpp`): the heater pin is
driven HIGH iff `enable && !sample_scheduled && op_level < output`. -/
def update_output (h : HeaterState) (op_level : ℚ) : HeaterState :=
  let output_state := h.enable && !h.sample_scheduled && decide (op_level < h.pid_output)
  { h with heater_pin := output_state }

/-- `Heater::pid_schedule_sample()` (`pid.cpp`): drive the heater LOW, set
the `sample_scheduled` flag and record `micros()`. -/
def pid_schedule_sample (h : HeaterState) (nowUs : ℕ) : HeaterState :=
  { h with
    heater_pin := false
    sample_scheduled := true
    sample_Schedule_timestamp := nowUs }

/-- `Heater::pid_sample()` (`pid.cpp`), with the `analogRead` result and
`micros()` passed as inputs.  Converts the raw reading to µV, computes the
temperature, advances the timestamps, flags a pending PID update, and
applies the runaway interlock (temperature above threshold, or ADC reading
at or above full scale ⇒ disable, reset PID, force the heater LOW). -/
def pid_sample (h : HeaterState) (adc_reading_bits : ℚ) (nowUs : ℕ) : HeaterState :=
  let adc_voltage := adc_reading_bits / ADC_RES * ADC_VREF
  let tc_voltage_volts := adc_voltage / h.tc_gain
  let pv := tc_voltage_volts * 1000000
  let temp := tcv_to_temp h.tc_cal_table pv
  let h1 := { h with
    pid_TCvoltage_pv := pv
    temp_pv := temp
    pid_TCvoltsge_pv_old_timestamp := h.pid_TCvoltage_pv_timestamp
    pid_TCvoltage_pv_timestamp := nowUs
    pid_update_pending := true }
  let runaway := decide (temp > h1.temp_runaway_threshold) || decide (adc_reading_bits ≥ ADC_RES)
  if runaway then
    { pid_reset { h1 with enable := false } with heater_pin := false }
  else h1

/-- `Heater::pid_compute()` (`pid.cpp`): oversampling guard, setpoint
selection, normalised error, P term, optionally filtered D term, integral
with back-calculation anti-windup, and the clamped output. -/
def pid_compute (h : HeaterState) : HeaterState :=
  let dt : ℚ :=
    ((h.pid_TCvoltage_pv_timestamp - h.pid_TCvoltsge_pv_old_timestamp : ℕ) : ℚ) / 1000000
  if dt < 1 / 1000 then
    { h with pid_update_pending := false }
  else
    let sp := if h.sleep_state then h.sleep_TCvoltage_set else h.pid_TCvoltage_sp
    let IOspan := h.tc_max_voltage_setpoint
    let sp_norm := sp / IOspan
    let pv_norm := h.pid_TCvoltage_pv / IOspan
    let error := sp_norm - pv_norm
    let p_term := h.pid_kp * error
    let dpair : ℚ × ℚ :=
      if h.pid_kd > 0 then
        if h.pid_derivative_filter_tau > 0 then
          let alpha := dt / (h.pid_derivative_filter_tau + dt)
          let filtered_error := alpha * error + (1 - alpha) * h.pid_derivative_prev_e_t
          (h.pid_kd * ((filtered_error - h.pid_derivative_prev_e_t) / dt), filtered_error)
        else
          (h.pid_kd * ((error - h.pid_derivative_prev_e_t) / dt), error)
      else (0, h.pid_derivative_prev_e_t)
    let d_term := dpair.1
    let ipair : ℚ × ℚ :=
      if h.pid_ki > 0 then
        let control_signal_unconstrained := p_term + h.pid_ki * h.pid_integral + d_term
        let aw_correction := h.pid_output - control_signal_unconstrained
        let Kb : ℚ := 1
        let integral1 := h.pid_integral + (error + Kb * aw_correction) * dt
        let i_max := pid_output_max / h.pid_ki
        let i_min := pid_output_min / h.pid_ki
        let integral2 := constrain integral1 i_min i_max
        (h.pid_ki * integral2, integral2)
      else (0, h.pid_integral)
    let i_term := ipair.1
    let control_signal := p_term + i_term + d_term
    { h with
      pid_derivative_prev_e_t := dpair.2
      pid_integral := ipair.2
      pid_output := constrain control_signal pid_output_min pid_output_max }

/-- `Heater::update()` (`Heater.cpp`), with the clock readings, the ADC
reading and the stand-sense level passed as inputs (`standLow = true`
models `digitalRead(stand) == LOW`, the iron resting on its stand).  The
HMI hook is the `nullptr` case. -/
def heater_update (h : HeaterState) (nowUs nowMs : ℕ) (adc : ℚ) (standLow : Bool) :
    HeaterState :=
  let h1 :=
    if h.sample_scheduled ∧ nowUs - h.sample_Schedule_timestamp > tc_amp_recovery_time then
      let hs := pid_sample h adc nowUs
      if hs.pid_TCvoltsge_pv_old_timestamp ≠ 0 then
        { hs with sample_scheduled := false }
      else hs
    else h
  let h2 :=
    if h1.pid_update_pending ∧ h1.enable then
      { pid_compute h1 with pid_update_pending := false }
    else h1
  if h2.enable then
    if standLow then
      if ¬h2.sleep_delay_running ∧ ¬h2.sleep_state then
        { h2 with sleep_delay_start_time := nowMs, sleep_delay_running := true }
      else if ((nowMs - h2.sleep_delay_start_time : ℕ) : ℚ) > h2.sleep_delay then
        { h2 with sleep_state := true, sleep_delay_running := false }
      else h2
    else
      { h2 with sleep_state := false, sleep_delay_running := false }
  else h2

/-- `parseBool` (`parser.cpp`): `"1"` ↦ `true`, `"0"` ↦ `false`, anything
else fails. -/
def parseBool (s : String) : Option Bool :=
  if s = "1" then some true else if s = "0" then some false else none

/-- `Heater::enable(cmd, response)` (`pid.cpp`), returning
`(handler result, response, new state)`.  On an argument that is neither
`"0"` nor `"1"` the source executes `return false;` BEFORE the
`response = "invalid value";` statement, so the response is left exactly
as it was passed in. -/
def enable_cmd (cmd : String) (response : String) (h : HeaterState) :
    Bool × String × HeaterState :=
  if cmd = "?" then
    (true, if h.enable then "1" else "0", h)
  else
    match parseBool cmd with
    | none => (false, response, h)
    | some new_state => (true, "OK", pid_reset { h with enable := new_state })

/-- The value-setting branch of `Heater::pid_cli_gain` (`pid.cpp`) on an
argument already parsed to `val`; `save` touches only the EEPROM, not the
channel state. -/
def pid_cli_gain_set (val : ℚ) (h : HeaterState) : Bool × HeaterState :=
  if val < 0 then (false, h) else (true, { h with pid_kp := val })

end JBclone

namespace JBclone

/-- CLAIM C4: for every channel state and every `op_level`,
`update_output(op_level)` drives the heater pin HIGH iff
`enable && !sample_scheduled && op_level < output`, and LOW otherwise. -/
theorem c4_update_output_gate (h : HeaterState) (op_level : ℚ) :
    (update_output h op_level).heater_pin =
      (h.enable && !h.sample_scheduled && decide (op_level < h.pid_output)) := by
  rfl

end JBclone

namespace JBclone

/-- The calibration table installed by `restore_default_config` with
sensitivity 50 µV/K-ish spacing: entry `i` is `(50·i µV, 50·i °C)`;
strictly increasing in both columns. -/
def tblW : Fin 10 → ℚ × ℚ := fun i => ((i : ℕ) * 50, (i : ℕ) * 50)

/-- A concrete channel configuration used to instantiate theorems: the
values a board-1 channel (`_tc_gain = 200`, so
`tc_max_voltage_setpoint = 3.3e6/200 = 16500 µV`) holds after `init()`
loaded a persisted record. -/
def hBase : HeaterState :=
  { temp_sp_min := 100
    temp_sp_max := 400
    temp_runaway_threshold := 480
    temp_sp := 320
    temp_pv := 0
    tc_cal_table := tblW
    tc_max_voltage_setpoint := 16500
    tc_gain := 200
    pid_kp := 0
    pid_ki := 0
    pid_integral := 0
    pid_kd := 0
    pid_derivative_prev_e_t := 0
    pid_derivative_filter_tau := 1 / 4
    pid_TCvoltage_sp := 500
    pid_output := 0
    sample_scheduled := false
    sample_Schedule_timestamp := 0
    pid_TCvoltsge_pv_old_timestamp := 0
    pid_TCvoltage_pv_timestamp := 0
    pid_TCvoltage_pv := 0
    pid_update_pending := false
    enable := false
    sleep_delay_start_time := 0
    sleep_delay_running := false
    sleep_delay := 30000
    sleep_state := false
    sleep_TCvoltage_set := 1500
    heater_pin := false }

/-- The temperature `pid_sample` computes is the table lookup of the µV
value derived from the raw ADC reading, on both sides of the runaway
branch. -/
lemma pid_sample_temp_pv (h : HeaterState) (adc : ℚ) (nowUs : ℕ) :
    (pid_sample h adc nowUs).temp_pv =
      tcv_to_temp h.tc_cal_table (adc / ADC_RES * ADC_VREF / h.tc_gain * 1000000) := by
  unfold pid_sample
  dsimp only
  split <;> rfl

/-- CLAIM C1: after `pid_sample` processes a sample in which the computed
`temp_pv` exceeds `temp_runaway_threshold` or the raw ADC reading equals
the full-scale count `ADC_RES`, the channel is latched off: `enable` is
false, the PID output is reset to 0, and the heater drive is LOW. -/
theorem c1_runaway_latch (h : HeaterState) (adc : ℚ) (nowUs : ℕ)
    (hr : (pid_sample h adc nowUs).temp_pv > h.temp_runaway_threshold ∨ adc = ADC_RES) :
    (pid_sample h adc nowUs).enable = false ∧
    (pid_sample h adc nowUs).pid_output = 0 ∧
    (pid_sample h adc nowUs).heater_pin = false := by
  rw [pid_sample_temp_pv] at hr
  unfold pid_sample
  dsimp only
  split
  · exact ⟨rfl, rfl, rfl⟩
  · rename_i hfalse
    exfalso
    simp only [Bool.or_eq_true, decide_eq_true_eq, not_or] at hfalse
    rcases hr with h1 | h2
    · exact hfalse.1 h1
    · exact hfalse.2 (le_of_eq h2.symm)

/-- Witness for C1 at a concrete channel and a full-scale ADC reading. -/
theorem c1_runaway_latch_witness :
    ((pid_sample hBase 4096 0).temp_pv > hBase.temp_runaway_threshold ∨ (4096 : ℚ) = ADC_RES) ∧
    ((pid_sample hBase 4096 0).enable = false ∧
     (pid_sample hBase 4096 0).pid_output = 0 ∧
     (pid_sample hBase 4096 0).heater_pin = false) :=
  ⟨Or.inr rfl, c1_runaway_latch hBase 4096 0 (Or.inr rfl)⟩

/-- CLAIM C9: if `pid_compute` runs with
`dt = (pv_timestamp − pv_prev_timestamp)·10⁻⁶ < 0.001 s`, it only clears
`pid_update_pending`; `output`, `integral` and `derivative_prev` (and every
other field) keep their values. -/
theorem c9_oversampling_guard (h : HeaterState)
    (hdt : ((h.pid_TCvoltage_pv_timestamp - h.pid_TCvoltsge_pv_old_timestamp : ℕ) : ℚ) / 1000000
            < 1 / 1000) :
    pid_compute h = { h with pid_update_pending := false } := by
  unfold pid_compute
  dsimp only
  rw [if_pos hdt]

/-- A channel state whose two sample timestamps are only 500 µs apart. -/
def hC9 : HeaterState :=
  { hBase with pid_TCvoltage_pv_timestamp := 500, pid_update_pending := true }

/-- Witness for C9 at the concrete state `hC9` (dt = 0.0005 s). -/
theorem c9_oversampling_guard_witness :
    (((hC9.pid_TCvoltage_pv_timestamp - hC9.pid_TCvoltsge_pv_old_timestamp : ℕ) : ℚ) / 1000000
      < 1 / 1000) ∧
    pid_compute hC9 = { hC9 with pid_update_pending := false } :=
  ⟨by norm_num [hC9, hBase], c9_oversampling_guard hC9 (by norm_num [hC9, hBase])⟩

end JBclone

namespace JBclone

/-- What one zero-cross tick does to the channels: broadcast
`schedule_sample()` or broadcast `update_output(op_level)`. -/
inductive TickAct
  | sample
  | update (op_level : ℚ)
  deriving DecidableEq

/-- One invocation of `zero_cross_isr()` (`zero_cross.h`) as a function of
the free-running counter: at `k ≥ N` broadcast the sample request and reset
the counter (no output update that tick), otherwise broadcast
`update_output(k/N)` and increment. -/
def zc_step (k : ℕ) : ℕ × TickAct :=
  if k ≥ zero_cross_period then (0, TickAct.sample)
  else (k + 1, TickAct.update ((k : ℚ) / (zero_cross_period : ℚ)))

/-- The counter (`static int zero_cross_counter = 0`) before tick `t`. -/
def zc_counter : ℕ → ℕ
  | 0 => 0
  | t + 1 => (zc_step (zc_counter t)).1

/-- The broadcast performed at tick `t` (ticks numbered from 0). -/
def zc_act (t : ℕ) : TickAct := (zc_step (zc_counter t)).2

/-- CLAIM C7 (amended): the ISR is periodic with period `N + 1 = 11`, not
`N`: the counter before tick `t` is `t mod 11`, tick `t` broadcasts
`schedule_sample()` exactly when `t ≡ 10 (mod 11)` (hence at most once in
any 10 — indeed 11 — consecutive ticks), and every other tick broadcasts
`update_output((t mod 11)/N)`, so between two consecutive sample broadcasts
exactly `N = 10` ticks (not `N − 1`) call `update_output`, with `op_level`
taking the values `k/N`, `k = 0..9`. -/
theorem c7_amended_schedule_period (t : ℕ) :
    zc_counter t = t % 11 ∧
    zc_act t = (if t % 11 = 10 then TickAct.sample
                else TickAct.update (((t % 11 : ℕ) : ℚ) / (zero_cross_period : ℚ))) := by
  have hc : ∀ s, zc_counter s = s % 11 := by
    intro s
    induction s with
    | zero => rfl
    | succ n ih =>
      show (zc_step (zc_counter n)).1 = (n + 1) % 11
      rw [ih]
      unfold zc_step zero_cross_period
      by_cases hge : n % 11 ≥ 10
      · rw [if_pos hge]
        show 0 = (n + 1) % 11
        omega
      · rw [if_neg hge]
        show n % 11 + 1 = (n + 1) % 11
        omega
  refine ⟨hc t, ?_⟩
  unfold zc_act
  rw [hc t]
  unfold zc_step zero_cross_period
  by_cases hge : t % 11 ≥ 10
  · have h10 : t % 11 = 10 := by omega
    rw [if_pos hge, if_pos h10]
  · have h10 : ¬t % 11 = 10 := by omega
    rw [if_neg hge, if_neg h10]

/-- Counterexample to C7 as stated: starting from counter 0, the first two
sample broadcasts are at ticks 10 and 21; the 10 ticks strictly between
them all call `update_output`, so exactly `N = 10` (not `N − 1 = 9`) ticks
between consecutive broadcasts are firing opportunities. -/
theorem c7_counterexample :
    zc_act 10 = TickAct.sample ∧ zc_act 21 = TickAct.sample ∧
    ((Finset.Ioo 10 21).filter fun t => zc_act t = TickAct.sample) = ∅ ∧
    ((Finset.Ioo 10 21).filter fun t => zc_act t ≠ TickAct.sample).card = 10 ∧
    (10 : ℕ) ≠ 9 := by
  decide

/-- Number of half-cycles, over the `N = 10` firing ticks `k = 0..9` of one
zero-cross window, in which `update_output(k/10)` drives the heater HIGH. -/
def burstHighCount (h : HeaterState) : ℕ :=
  ((Finset.range 10).filter fun k : ℕ =>
    (update_output h ((k : ℚ) / 10)).heater_pin = true).card

/-- CLAIM C3 (amended): over a window of `N = 10` ticks with `enable` true
and `sample_scheduled` false throughout, the number of half-cycles driven
HIGH is `⌈output·N⌉` (the count of `k` with `k/N < output`), which equals
`floor(output·N)` only when `output·N` is an integer. -/
theorem c3_amended_burst_count (h : HeaterState)
    (hen : h.enable = true) (hs : h.sample_scheduled = false)
    (h0 : 0 ≤ h.pid_output) (h1 : h.pid_output ≤ 1) :
    burstHighCount h = Nat.ceil ((10 : ℚ) * h.pid_output) := by
  have hcond : ∀ k : ℕ, ((k : ℚ) / 10 < h.pid_output) ↔
      (k < Nat.ceil ((10 : ℚ) * h.pid_output)) := by
    intro k
    rw [div_lt_iff₀ (by norm_num : (0 : ℚ) < 10), mul_comm]
    exact (Nat.lt_ceil).symm
  have hc10 : Nat.ceil ((10 : ℚ) * h.pid_output) ≤ 10 := by
    refine Nat.ceil_le.mpr ?_
    push_cast
    nlinarith
  unfold burstHighCount update_output
  simp only [hen, hs, Bool.not_false, Bool.true_and, Bool.and_self, decide_eq_true_eq]
  calc ((Finset.range 10).filter fun k : ℕ => (k : ℚ) / 10 < h.pid_output).card
      = ((Finset.range 10).filter fun k : ℕ =>
          k < Nat.ceil ((10 : ℚ) * h.pid_output)).card := by
        apply congrArg
        apply Finset.filter_congr
        intro k _
        simp only [hcond k, decide_eq_true_eq]
    _ = (Finset.range (Nat.ceil ((10 : ℚ) * h.pid_output))).card := by
        apply congrArg
        ext k
        simp only [Finset.mem_filter, Finset.mem_range]
        omega
    _ = Nat.ceil ((10 : ℚ) * h.pid_output) := Finset.card_range _

/-- An enabled channel with `output = 1/4`. -/
def hC3 : HeaterState := { hBase with enable := true, pid_output := 1 / 4 }

/-- Counterexample to C3 as stated: with `output = 1/4` the heater is HIGH
for `k ∈ {0,1,2}` (3 half-cycles), but `floor(output·N) = 2`. -/
theorem c3_counterexample :
    hC3.enable = true ∧ hC3.sample_scheduled = false ∧
    0 ≤ hC3.pid_output ∧ hC3.pid_output ≤ 1 ∧
    burstHighCount hC3 ≠ Int.toNat ⌊hC3.pid_output * ((zero_cross_period : ℕ) : ℚ)⌋ := by
  with_unfolding_all decide

/-- An enabled channel with `output = 0.3`. -/
def hC3W : HeaterState := { hBase with enable := true, pid_output := 3 / 10 }

/-- Witness for the amended C3 at `output = 0.3`: exactly
`⌈10·0.3⌉ = 3` of the 10 half-cycles are HIGH. -/
theorem c3_amended_burst_count_witness :
    (hC3W.enable = true ∧ hC3W.sample_scheduled = false ∧
     0 ≤ hC3W.pid_output ∧ hC3W.pid_output ≤ 1) ∧
    burstHighCount hC3W = Nat.ceil ((10 : ℚ) * hC3W.pid_output) :=
  ⟨⟨rfl, rfl, by with_unfolding_all decide, by with_unfolding_all decide⟩,
    c3_amended_burst_count hC3W rfl rfl (by with_unfolding_all decide)
      (by with_unfolding_all decide)⟩

end JBclone

namespace JBclone

/-- A one-channel system state: the heater object plus the ISR's
`static int zero_cross_counter`. -/
structure SysState where
  h : HeaterState
  zero_cross_counter : ℕ

/-- The atomic steps of the system, each carrying its hardware inputs:
a `pid_kp` set command, an `en` set command, one `zero_cross_isr()`
invocation, and one main-loop `Heater::update()` iteration. -/
inductive Ev
  | cmdKp (val : ℚ)
  | cmdEn (b : Bool)
  | isrTick (nowUs : ℕ)
  | loopUpd (nowUs nowMs : ℕ) (adc : ℚ) (standLow : Bool)

/-- The system transition function.  `isrTick` follows `zero_cross_isr()`
(`zero_cross.h`); the command events route through the handlers exactly as
`eval_serial_command` would on a valid argument. -/
def evStep (s : SysState) : Ev → SysState
  | Ev.cmdKp val => { s with h := (pid_cli_gain_set val s.h).2 }
  | Ev.cmdEn b => { s with h := (enable_cmd (if b then "1" else "0") "" s.h).2.2 }
  | Ev.isrTick nowUs =>
    if s.zero_cross_counter ≥ zero_cross_period then
      { h := pid_schedule_sample s.h nowUs, zero_cross_counter := 0 }
    else
      { h := update_output s.h ((s.zero_cross_counter : ℚ) / (zero_cross_period : ℚ)),
        zero_cross_counter := s.zero_cross_counter + 1 }
  | Ev.loopUpd nowUs nowMs adc standLow =>
    { s with h := heater_update s.h nowUs nowMs adc standLow }

/-- CLAIM C5 (amended): a disabled channel's heater pin is LOW after the
next zero-cross ISR step (both branches of the ISR drive it LOW when
`enable` is false) — but not necessarily before it, because the `en:0`
handler itself never writes the pin (see the counterexample). -/
theorem c5_amended_disabled_low_after_tick (s : SysState) (nowUs : ℕ)
    (hdis : s.h.enable = false) :
    (evStep s (Ev.isrTick nowUs)).h.heater_pin = false := by
  show (if s.zero_cross_counter ≥ zero_cross_period then _ else _ : SysState).h.heater_pin = false
  split
  · rfl
  · show (update_output s.h _).heater_pin = false
    unfold update_output
    simp [hdis]

/-- Witness for the amended C5: a disabled channel whose pin is still HIGH
goes LOW on the next ISR tick. -/
theorem c5_amended_disabled_low_after_tick_witness :
    (SysState.mk { hBase with heater_pin := true } 0).h.enable = false ∧
    (evStep (SysState.mk { hBase with heater_pin := true } 0) (Ev.isrTick 0)).h.heater_pin
      = false :=
  ⟨rfl, c5_amended_disabled_low_after_tick (SysState.mk { hBase with heater_pin := true } 0) 0 rfl⟩

/-- The post-`init()` system state: heater pin LOW (`init` writes LOW),
`enable` false (constructor), PID state reset, configuration as loaded
from the persisted record, ISR counter 0. -/
def sysInit : SysState := SysState.mk hBase 0

/-- A reachable run: raise `kp`, enable, let the ISR reach the sample tick,
take two samples (the first is retaken), compute a positive PID output,
fire the heater on the next zero-cross, then disable via `en:0`. -/
def c5_events : List Ev :=
  [Ev.cmdKp 1, Ev.cmdEn true,
   Ev.isrTick 0, Ev.isrTick 0, Ev.isrTick 0, Ev.isrTick 0, Ev.isrTick 0,
   Ev.isrTick 0, Ev.isrTick 0, Ev.isrTick 0, Ev.isrTick 0, Ev.isrTick 0,
   Ev.isrTick 100000,
   Ev.loopUpd 200000 0 0 false,
   Ev.loopUpd 400000 0 0 false,
   Ev.isrTick 500000,
   Ev.cmdEn false]

/-- Counterexample to C5 as stated: the state reached by `c5_events` from
`sysInit` comes immediately after the `en:0` handler returned, has
`enable = false`, and still drives the heater pin HIGH (the handler resets
the PID but never writes the pin; the pin stays HIGH until the next
zero-cross tick). -/
theorem c5_counterexample :
    (List.foldl evStep sysInit c5_events).h.enable = false ∧
    (List.foldl evStep sysInit c5_events).h.heater_pin = true := by
  with_unfolding_all decide

end JBclone

namespace JBclone

/-- CLAIM C8 (the `en` handler, code bug): on an argument that is neither
`"0"` nor `"1"` the handler returns failure and mutates nothing, but the
response is returned exactly as passed in — the source's
`response = "invalid value";` sits after `return false;` and never runs —
so no descriptive body is set. -/
theorem c8_en_invalid_arg_response_unset (h : HeaterState) (resp : String) :
    enable_cmd "2" resp h = (false, resp, h) := by
  rfl

end JBclone

namespace JBclone

/-- Arduino `String::indexOf(ch)` scanning helper: the index (counting
from `idx` for the list head) of the first occurrence of `c`. -/
def indexOfAux (c : Char) : List Char → ℕ → Option ℕ
  | [], _ => none
  | x :: xs, idx => if x = c then some idx else indexOfAux c xs (idx + 1)

/-- `String::indexOf(c)`: position of the first occurrence of `c`. -/
def strIndexOf (msg : List Char) (c : Char) : Option ℕ :=
  indexOfAux c msg 0

/-- `String::indexOf(c, fromIndex)`: position of the first occurrence of
`c` at or after position `start`. -/
def strIndexOfFrom (msg : List Char) (c : Char) (start : ℕ) : Option ℕ :=
  match indexOfAux c (msg.drop start) 0 with
  | none => none
  | some k => some (start + k)

/-- `_heater_count` (`objects.h`): 4 channels. -/
def heater_count : ℕ := 4

/-- The routing decision taken by `eval_serial_command`
(`Serial_controls.h`). -/
inductive Route
  | malformed
  | invalidId
  | dispatch (id : ℕ) (command : List Char) (arg : List Char)
  deriving DecidableEq

/-- The parsing/routing part of `eval_serial_command`
(`Serial_controls.h`): find the two `':'` separators (either missing ⇒
malformed), read the device id from `message[0]` alone
(`isdigit(message[0]) ? message[0] - '0' : -1`), range-check it against
the heater array, and split out the command and argument substrings; the
command-table lookup then receives exactly the `dispatch` fields. -/
def eval_route (message : List Char) : Route :=
  match strIndexOf message ':' with
  | none => Route.malformed
  | some c1 =>
    match strIndexOfFrom message ':' (c1 + 1) with
    | none => Route.malformed
    | some c2 =>
      let c0 := message.headD (Char.ofNat 0)
      let id : ℤ := if c0.isDigit then ((c0.toNat - '0'.toNat : ℕ) : ℤ) else -1
      if id < 0 ∨ id ≥ (heater_count : ℤ) then Route.invalidId
      else
        Route.dispatch id.toNat
          ((message.drop (c1 + 1)).take (c2 - (c1 + 1)))
          (message.drop (c2 + 1))

/-- If `c` occurs in `l`, the scan finds an index. -/
lemma indexOfAux_isSome (c : Char) (l : List Char) (hc : c ∈ l) :
    ∀ n, (indexOfAux c l n).isSome := by
  induction l with
  | nil => cases hc
  | cons x xs ih =>
    intro n
    unfold indexOfAux
    by_cases hx : x = c
    · rw [if_pos hx]; rfl
    · rw [if_neg hx]
      refine ih ?_ (n + 1)
      rcases List.mem_cons.mp hc with h | h
      · exact absurd h.symm hx
      · exact h

/-- Scanning `l ++ c :: r` with `c ∉ l` finds exactly the middle
occurrence. -/
lemma indexOfAux_append (c : Char) (l r : List Char) (hl : c ∉ l) :
    ∀ n, indexOfAux c (l ++ c :: r) n = some (n + l.length) := by
  induction l with
  | nil =>
    intro n
    show (if c = c then some n else _) = _
    rw [if_pos rfl]
    simp
  | cons x xs ih =>
    intro n
    have hx : ¬x = c := fun h => hl (h ▸ List.mem_cons_self x xs)
    show (if x = c then some n else indexOfAux c (xs ++ c :: r) (n + 1)) = _
    rw [if_neg hx, ih (fun h => hl (List.mem_cons_of_mem x h)) (n + 1)]
    simp only [List.length_cons]
    exact congrArg some (by omega)

/-- CLAIM C10: for a message with at least two colons whose first
character is not itself a colon, everything strictly between the first
character and the first colon is ignored by the routing of
`eval_serial_command`: the result coincides with that for the message
with the junk removed, so the channel id is determined solely by the
first character. -/
theorem c10_route_ignores_junk_before_colon (c0 : Char) (junk rest : List Char)
    (hc0 : c0 ≠ ':') (hjunk : ':' ∉ junk) (hrest : ':' ∈ rest) :
    eval_route (c0 :: junk ++ ':' :: rest) = eval_route (c0 :: ':' :: rest) := by
  obtain ⟨j, hj⟩ : ∃ j, indexOfAux ':' rest 0 = some j := by
    rcases heq : indexOfAux ':' rest 0 with _ | j
    · have hs := indexOfAux_isSome ':' rest hrest 0
      rw [heq] at hs
      cases hs
    · exact ⟨j, rfl⟩
  have hdropL : ∀ n, (c0 :: junk ++ ':' :: rest).drop (junk.length + 1 + 1 + n)
      = rest.drop n := by
    intro n
    have hmsg : c0 :: junk ++ ':' :: rest = ((c0 :: junk) ++ [':']) ++ rest := by simp
    have hlen : junk.length + 1 + 1 + n = ((c0 :: junk) ++ [':']).length + n := by
      simp
    rw [hmsg, hlen, List.drop_append]
  have hdropR : ∀ n, (c0 :: ':' :: rest).drop (1 + 1 + n) = rest.drop n := by
    intro n
    have hmsg : c0 :: ':' :: rest = [c0, ':'] ++ rest := by simp
    have hlen : 1 + 1 + n = ([c0, ':'] : List Char).length + n := by simp
    rw [hmsg, hlen, List.drop_append]
  have hdL0 : (c0 :: junk ++ ':' :: rest).drop (junk.length + 1 + 1) = rest := by
    have h := hdropL 0
    simp only [Nat.add_zero, List.drop_zero] at h
    exact h
  have hdR0 : (c0 :: ':' :: rest).drop (1 + 1) = rest := by
    have h := hdropR 0
    simp only [Nat.add_zero, List.drop_zero] at h
    exact h
  have h1 : strIndexOf (c0 :: junk ++ ':' :: rest) ':' = some (junk.length + 1) := by
    show (if c0 = ':' then some 0 else indexOfAux ':' (junk ++ ':' :: rest) 1) = _
    rw [if_neg hc0, indexOfAux_append ':' junk rest hjunk 1]
    exact congrArg some (by omega)
  have h1' : strIndexOf (c0 :: ':' :: rest) ':' = some 1 := by
    show (if c0 = ':' then some 0 else indexOfAux ':' (':' :: rest) 1) = _
    rw [if_neg hc0]
    show (if (':' : Char) = ':' then some 1 else _) = some 1
    rw [if_pos rfl]
  have h3 : strIndexOfFrom (c0 :: junk ++ ':' :: rest) ':' (junk.length + 1 + 1)
      = some (junk.length + 1 + 1 + j) := by
    unfold strIndexOfFrom
    rw [hdL0, hj]
  have h3' : strIndexOfFrom (c0 :: ':' :: rest) ':' (1 + 1) = some (1 + 1 + j) := by
    unfold strIndexOfFrom
    rw [hdR0, hj]
  have hheadL : (c0 :: junk ++ ':' :: rest).headD (Char.ofNat 0) = c0 := rfl
  have hheadR : (c0 :: ':' :: rest).headD (Char.ofNat 0) = c0 := rfl
  simp only [eval_route, h1, h1', h3, h3', hheadL, hheadR]
  by_cases hid : ((if c0.isDigit then ((c0.toNat - '0'.toNat : ℕ) : ℤ) else -1) < 0 ∨
      (if c0.isDigit then ((c0.toNat - '0'.toNat : ℕ) : ℤ) else -1) ≥ (heater_count : ℤ))
  · rw [if_pos hid, if_pos hid]
  · rw [if_neg hid, if_neg hid]
    have hcmd : ((c0 :: junk ++ ':' :: rest).drop (junk.length + 1 + 1)).take
        (junk.length + 1 + 1 + j - (junk.length + 1 + 1))
        = ((c0 :: ':' :: rest).drop (1 + 1)).take (1 + 1 + j - (1 + 1)) := by
      rw [hdL0, hdR0]
      congr 1
      omega
    have harg : (c0 :: junk ++ ':' :: rest).drop (junk.length + 1 + 1 + j + 1)
        = (c0 :: ':' :: rest).drop (1 + 1 + j + 1) := by
      rw [show junk.length + 1 + 1 + j + 1 = junk.length + 1 + 1 + (j + 1) by omega,
        hdropL (j + 1),
        show 1 + 1 + j + 1 = 1 + 1 + (j + 1) by omega, hdropR (j + 1)]
    rw [hcmd, harg]

/-- Witness for C10: the message `"12:en:?"` is routed to channel 1 with
command `en` and argument `?` — the `'2'` before the first colon is
ignored, exactly as for `"1:en:?"`. -/
theorem c10_route_ignores_junk_witness :
    (('1' : Char) ≠ ':' ∧ (':' : Char) ∉ ['2'] ∧ (':' : Char) ∈ ['e', 'n', ':', '?']) ∧
    eval_route ('1' :: ['2'] ++ ':' :: ['e', 'n', ':', '?'])
      = eval_route ('1' :: ':' :: ['e', 'n', ':', '?']) ∧
    eval_route ('1' :: ['2'] ++ ':' :: ['e', 'n', ':', '?'])
      = Route.dispatch 1 ['e', 'n'] ['?'] :=
  ⟨⟨by decide, by decide, by decide⟩,
    c10_route_ignores_junk_before_colon '1' ['2'] ['e', 'n', ':', '?']
      (by decide) (by decide) (by decide),
    by decide⟩

end JBclone

namespace JBclone

/-- A stored IEEE-754 float value: `none` models NaN, `some q` a numeric
value. -/
abbrev Flt := Option ℚ

/-- The EEPROM contents seen through `EEprom::readFloat` at each record
offset: `none` models a failing byte read (the output variable is left
untouched), `some f` four successfully read bytes decoding to `f`. -/
abbrev FloatMem := ℕ → Option Flt

/-- `EEprom::readFloat(addr, value)` (`EEprom.cpp`): on a byte-read
failure return false with `value` untouched; otherwise the decoded float
is written into `value` first, and `isnan(value)` then fails the read. -/
def readFloat (mem : FloatMem) (addr : ℕ) (value : Flt) : Flt × Bool :=
  match mem addr with
  | none => (value, false)
  | some f => (f, f.isSome)

/-- The persisted in-memory configuration of a channel: the ten scalars of
`_eeprom_mapped_vars` (in declaration order, index 0 = `_pid_TCvoltage_sp`),
the ten calibration pairs, and the derived `_temp_sp`. -/
structure MemConfig where
  vars : Fin 10 → Flt
  tbl : Fin 10 → Flt × Flt
  temp_sp : Flt

/-- `c` with `r` or `v` read: the value a field holds after
`readFloat` ran on it. -/
def cellGetD (r : Option Flt) (v : Flt) : Flt :=
  match r with
  | none => v
  | some f => f

/-- Whether `readFloat` reports success on cell contents `r`. -/
def cellOk (r : Option Flt) : Bool :=
  match r with
  | none => false
  | some f => f.isSome

lemma readFloat_fst (mem : FloatMem) (a : ℕ) (v : Flt) :
    (readFloat mem a v).1 = cellGetD (mem a) v := by
  unfold readFloat cellGetD
  cases mem a <;> rfl

lemma readFloat_snd (mem : FloatMem) (a : ℕ) (v : Flt) :
    (readFloat mem a v).2 = cellOk (mem a) := by
  unfold readFloat cellOk
  cases mem a <;> rfl

/-- `Heater::tcv_to_temp` lifted to stored floats: NaN anywhere among the
inputs propagates to NaN.  Inside `load_memory` this is only evaluated
under the all-reads-succeeded guard, where every entry is numeric and the
lift agrees with the float computation. -/
def tcv_to_tempO (tbl : Fin 10 → Flt × Flt) (v : Flt) : Flt :=
  match v with
  | none => none
  | some q =>
    if h : ∀ i : Fin 10, ((tbl i).1.isSome ∧ (tbl i).2.isSome) then
      some (tcv_to_temp (fun i => (((tbl i).1).get (h i).1, ((tbl i).2).get (h i).2)) q)
    else none

/-- One iteration of the first `load_memory` loop: read scalar `i`
in place (the source walks `addr += sizeof(float)`, so scalar `i` sits at
`start + 4·i`) and fold its success into `good_op`. -/
def load_var_step (mem : FloatMem) (start_address : ℕ)
    (cg : MemConfig × Bool) (i : Fin 10) : MemConfig × Bool :=
  let r := readFloat mem (start_address + 4 * (i : ℕ)) (cg.1.vars i)
  ({ cg.1 with vars := Function.update cg.1.vars i r.1 }, cg.2 && r.2)

/-- One iteration of the second `load_memory` loop: read calibration pair
`i` in place (voltage at `start + 40 + 8·i`, temperature 4 bytes later). -/
def load_tbl_step (mem : FloatMem) (start_address : ℕ)
    (cg : MemConfig × Bool) (i : Fin 10) : MemConfig × Bool :=
  let rv := readFloat mem (start_address + 40 + 8 * (i : ℕ)) (cg.1.tbl i).1
  let rt := readFloat mem (start_address + 40 + 8 * (i : ℕ) + 4) (cg.1.tbl i).2
  ({ cg.1 with tbl := Function.update cg.1.tbl i (rv.1, rt.1) }, cg.2 && rv.2 && rt.2)

/-- `Heater::load_memory()` (`Heater.h` part two): read the ten scalars
and the ten calibration pairs in place, accumulating `good_op`; only if
every read succeeded, recompute `_temp_sp = tcv_to_temp(_pid_TCvoltage_sp)`.
Returns the updated configuration and `good_op`. -/
def load_memory (mem : FloatMem) (start_address : ℕ) (c : MemConfig) :
    MemConfig × Bool :=
  let cg1 := (List.finRange 10).foldl (load_var_step mem start_address) (c, true)
  let cg2 := (List.finRange 10).foldl (load_tbl_step mem start_address) cg1
  if cg2.2 then
    ({ cg2.1 with temp_sp := tcv_to_tempO cg2.1.tbl (cg2.1.vars 0) }, cg2.2)
  else cg2

lemma foldl_var_step (mem : FloatMem) (start_address : ℕ) (l : List (Fin 10))
    (hnd : l.Nodup) (c : MemConfig) (g : Bool) :
    (∀ j : Fin 10, (l.foldl (load_var_step mem start_address) (c, g)).1.vars j
        = if j ∈ l then cellGetD (mem (start_address + 4 * (j : ℕ))) (c.vars j)
          else c.vars j) ∧
    (l.foldl (load_var_step mem start_address) (c, g)).1.tbl = c.tbl ∧
    (l.foldl (load_var_step mem start_address) (c, g)).1.temp_sp = c.temp_sp ∧
    (l.foldl (load_var_step mem start_address) (c, g)).2
        = (g && l.all fun i => cellOk (mem (start_address + 4 * (i : ℕ)))) := by
  induction l generalizing c g with
  | nil => simp
  | cons i tl ih =>
    obtain ⟨hi, hnd'⟩ := List.nodup_cons.mp hnd
    simp only [List.foldl_cons]
    have hstep : load_var_step mem start_address (c, g) i
        = ({ c with vars := Function.update c.vars i
                      (cellGetD (mem (start_address + 4 * (i : ℕ))) (c.vars i)) },
           g && cellOk (mem (start_address + 4 * (i : ℕ)))) := by
      simp only [load_var_step]
      rw [readFloat_fst, readFloat_snd]
    rw [hstep]
    obtain ⟨ihv, iht, ihs, ihf⟩ := ih hnd' _ _
    refine ⟨?_, by simpa using iht, by simpa using ihs, ?_⟩
    · intro j
      rw [ihv j]
      by_cases hji : j = i
      · subst hji
        have : j ∉ tl := hi
        rw [if_neg this, if_pos (List.mem_cons_self j tl)]
        simp [Function.update]
      · by_cases hjt : j ∈ tl
        · rw [if_pos hjt, if_pos (List.mem_cons_of_mem i hjt)]
          simp [Function.update, hji]
        · rw [if_neg hjt]
          rw [if_neg (by simp [hji, hjt])]
          simp [Function.update, hji]
    · rw [ihf, List.all_cons]
      simp only [Bool.and_assoc]

lemma foldl_tbl_step (mem : FloatMem) (start_address : ℕ) (l : List (Fin 10))
    (hnd : l.Nodup) (c : MemConfig) (g : Bool) :
    (∀ j : Fin 10, (l.foldl (load_tbl_step mem start_address) (c, g)).1.tbl j
        = if j ∈ l then
            (cellGetD (mem (start_address + 40 + 8 * (j : ℕ))) ((c.tbl j).1),
             cellGetD (mem (start_address + 40 + 8 * (j : ℕ) + 4)) ((c.tbl j).2))
          else c.tbl j) ∧
    (l.foldl (load_tbl_step mem start_address) (c, g)).1.vars = c.vars ∧
    (l.foldl (load_tbl_step mem start_address) (c, g)).1.temp_sp = c.temp_sp ∧
    (l.foldl (load_tbl_step mem start_address) (c, g)).2
        = (g && l.all fun i => cellOk (mem (start_address + 40 + 8 * (i : ℕ)))
              && cellOk (mem (start_address + 40 + 8 * (i : ℕ) + 4))) := by
  induction l generalizing c g with
  | nil => simp
  | cons i tl ih =>
    obtain ⟨hi, hnd'⟩ := List.nodup_cons.mp hnd
    simp only [List.foldl_cons]
    have hstep : load_tbl_step mem start_address (c, g) i
        = ({ c with tbl := Function.update c.tbl i
                      (cellGetD (mem (start_address + 40 + 8 * (i : ℕ))) ((c.tbl i).1),
                       cellGetD (mem (start_address + 40 + 8 * (i : ℕ) + 4)) ((c.tbl i).2)) },
           g && cellOk (mem (start_address + 40 + 8 * (i : ℕ)))
             && cellOk (mem (start_address + 40 + 8 * (i : ℕ) + 4))) := by
      simp only [load_tbl_step]
      rw [readFloat_fst, readFloat_fst, readFloat_snd, readFloat_snd]
    rw [hstep]
    obtain ⟨ihv, iht, ihs, ihf⟩ := ih hnd' _ _
    refine ⟨?_, by simpa using iht, by simpa using ihs, ?_⟩
    · intro j
      rw [ihv j]
      by_cases hji : j = i
      · subst hji
        have : j ∉ tl := hi
        rw [if_neg this, if_pos (List.mem_cons_self j tl)]
        simp [Function.update]
      · by_cases hjt : j ∈ tl
        · rw [if_pos hjt, if_pos (List.mem_cons_of_mem i hjt)]
          simp [Function.update, hji]
        · rw [if_neg hjt]
          rw [if_neg (by simp [hji, hjt])]
          simp [Function.update, hji]
    · rw [ihf, List.all_cons]
      simp only [Bool.and_assoc]

end JBclone

namespace JBclone

/-- CLAIM C2 (amended): `load(channel)` is not all-or-nothing.  Precisely:
every scalar and calibration field whose `readFloat` reaches a decoded
value — including a NaN — is overwritten with it even when the overall
load fails; a field whose byte reads fail keeps its previous value; the
load succeeds iff all thirty reads decode non-NaN values; and exactly on
success `temp_sp` is recomputed as `tcv_to_temp(tc_voltage_sp)` over the
freshly loaded configuration. -/
theorem c2_amended_load_characterization (mem : FloatMem) (start_address : ℕ)
    (c : MemConfig) :
    (∀ j : Fin 10, (load_memory mem start_address c).1.vars j
        = cellGetD (mem (start_address + 4 * (j : ℕ))) (c.vars j)) ∧
    (∀ j : Fin 10, (load_memory mem start_address c).1.tbl j
        = (cellGetD (mem (start_address + 40 + 8 * (j : ℕ))) ((c.tbl j).1),
           cellGetD (mem (start_address + 40 + 8 * (j : ℕ) + 4)) ((c.tbl j).2))) ∧
    ((load_memory mem start_address c).2
        = (((List.finRange 10).all fun i => cellOk (mem (start_address + 4 * (i : ℕ)))) &&
           ((List.finRange 10).all fun i =>
              cellOk (mem (start_address + 40 + 8 * (i : ℕ)))
                && cellOk (mem (start_address + 40 + 8 * (i : ℕ) + 4))))) ∧
    ((load_memory mem start_address c).1.temp_sp
        = if (load_memory mem start_address c).2 then
            tcv_to_tempO (load_memory mem start_address c).1.tbl
              ((load_memory mem start_address c).1.vars 0)
          else c.temp_sp) := by
  have hnd := List.nodup_finRange 10
  obtain ⟨hv1, ht1, hs1, hf1⟩ := foldl_var_step mem start_address _ hnd c true
  rcases hcg1 : (List.finRange 10).foldl (load_var_step mem start_address) (c, true)
    with ⟨c1, g1⟩
  rw [hcg1] at hv1 ht1 hs1 hf1
  obtain ⟨ht2, hv2, hs2, hf2⟩ := foldl_tbl_step mem start_address _ hnd c1 g1
  rcases hcg2 : (List.finRange 10).foldl (load_tbl_step mem start_address) (c1, g1)
    with ⟨c2, g2⟩
  rw [hcg2] at ht2 hv2 hs2 hf2
  dsimp only at hv1 ht1 hs1 hf1 ht2 hv2 hs2 hf2
  have hlm : load_memory mem start_address c
      = (if g2 then ({ c2 with temp_sp := tcv_to_tempO c2.tbl (c2.vars 0) }, g2)
         else (c2, g2)) := by
    simp only [load_memory]
    rw [hcg1, hcg2]
  have hvarsF : ∀ j : Fin 10,
      c2.vars j = cellGetD (mem (start_address + 4 * (j : ℕ))) (c.vars j) := by
    intro j
    rw [hv2, hv1 j, if_pos (List.mem_finRange j)]
  have htblF : ∀ j : Fin 10,
      c2.tbl j = (cellGetD (mem (start_address + 40 + 8 * (j : ℕ))) ((c.tbl j).1),
        cellGetD (mem (start_address + 40 + 8 * (j : ℕ) + 4)) ((c.tbl j).2)) := by
    intro j
    rw [ht2 j, if_pos (List.mem_finRange j), ht1]
  have hspF : c2.temp_sp = c.temp_sp := by rw [hs2, hs1]
  have hflagF : g2 = (((List.finRange 10).all fun i =>
        cellOk (mem (start_address + 4 * (i : ℕ)))) &&
      ((List.finRange 10).all fun i =>
        cellOk (mem (start_address + 40 + 8 * (i : ℕ)))
          && cellOk (mem (start_address + 40 + 8 * (i : ℕ) + 4)))) := by
    rw [hf2, hf1]
    simp only [Bool.true_and]
  refine ⟨?_, ?_, ?_, ?_⟩
  · intro j
    rw [hlm]
    by_cases hg : g2 = true
    · rw [if_pos hg]
      exact hvarsF j
    · rw [if_neg hg]
      exact hvarsF j
  · intro j
    rw [hlm]
    by_cases hg : g2 = true
    · rw [if_pos hg]
      exact htblF j
    · rw [if_neg hg]
      exact htblF j
  · rw [hlm]
    by_cases hg : g2 = true
    · rw [if_pos hg]
      exact hflagF
    · rw [if_neg hg]
      exact hflagF
  · rw [hlm]
    by_cases hg : g2 = true
    · rw [if_pos hg, hg]
      rw [if_pos rfl]
    · rw [if_neg hg]
      have hg2 : g2 = false := by
        cases g2
        · rfl
        · exact absurd rfl hg
      rw [hg2, if_neg (by simp)]
      exact hspF

/-- A memory image whose first record cell (the 4 bytes of
`tc_voltage_sp`) decodes to NaN while every other byte read fails. -/
def memC2 : FloatMem := fun addr => if addr = 0 then some none else none

/-- A pre-load configuration whose fields all hold the numeric value 1. -/
def cfgC2 : MemConfig :=
  { vars := fun _ => some 1
    tbl := fun _ => (some 1, some 1)
    temp_sp := some 1 }

/-- Counterexample to C2 as stated: loading `memC2` fails (NaN read plus
failing reads), yet the in-memory `tc_voltage_sp` (scalar 0) was
overwritten with the NaN — the failed `load_memory` did not leave every
field at its pre-load value. -/
theorem c2_counterexample :
    (load_memory memC2 0 cfgC2).2 = false ∧
    (load_memory memC2 0 cfgC2).1.vars 0 ≠ cfgC2.vars 0 := by
  with_unfolding_all decide

end JBclone

namespace JBclone

lemma interp_left (x1 y1 x2 y2 : ℚ) : interp x1 y1 x2 y2 x1 = y1 := by
  unfold interp
  ring

lemma interp_right (x1 y1 x2 y2 : ℚ) (h : x2 - x1 ≠ 0) :
    interp x1 y1 x2 y2 x2 = y2 := by
  unfold interp
  rw [div_mul_cancel₀ _ h]
  ring

lemma interp_inv (x1 y1 x2 y2 x : ℚ) (hx : x2 - x1 ≠ 0) (hy : y2 - y1 ≠ 0) :
    interp y1 x1 y2 x2 (interp x1 y1 x2 y2 x) = x := by
  unfold interp
  field_simp
  ring

lemma interp_lb (x1 y1 x2 y2 x : ℚ) (hx : x1 < x2) (hy : y1 < y2) (h : x1 ≤ x) :
    y1 ≤ interp x1 y1 x2 y2 x := by
  unfold interp
  have hs : 0 < (y2 - y1) / (x2 - x1) := div_pos (by linarith) (by linarith)
  nlinarith [mul_nonneg hs.le (sub_nonneg.mpr h)]

lemma interp_lb_strict (x1 y1 x2 y2 x : ℚ) (hx : x1 < x2) (hy : y1 < y2) (h : x1 < x) :
    y1 < interp x1 y1 x2 y2 x := by
  unfold interp
  have hs : 0 < (y2 - y1) / (x2 - x1) := div_pos (by linarith) (by linarith)
  nlinarith [mul_pos hs (sub_pos.mpr h)]

lemma interp_ub (x1 y1 x2 y2 x : ℚ) (hx : x1 < x2) (hy : y1 < y2) (h : x < x2) :
    interp x1 y1 x2 y2 x < y2 := by
  unfold interp
  have hs : 0 < (y2 - y1) / (x2 - x1) := div_pos (by linarith) (by linarith)
  have key : (y2 - y1) / (x2 - x1) * (x - x1) < (y2 - y1) / (x2 - x1) * (x2 - x1) :=
    mul_lt_mul_of_pos_left (by linarith) hs
  rw [div_mul_cancel₀ _ (by linarith : x2 - x1 ≠ 0)] at key
  linarith

/-- The search loop, entered at index `i` with enough fuel, stops at the
first segment `[X (j-1), X j)` containing the query and interpolates
there. -/
lemma lut_loop_seg (X Y : Fin 10 → ℚ) (x : ℚ)
    (hmono : ∀ a b : Fin 10, a < b → X a < X b)
    (j : ℕ) (hj1 : 1 ≤ j) (hj9 : j ≤ 9)
    (hseg1 : X ⟨j - 1, by omega⟩ ≤ x) (hseg2 : x < X ⟨j, by omega⟩) :
    ∀ fuel i, 1 ≤ i → i ≤ j → 10 ≤ i + fuel →
      lut_loop X Y x i fuel
        = interp (X ⟨j - 1, by omega⟩) (Y ⟨j - 1, by omega⟩)
            (X ⟨j, by omega⟩) (Y ⟨j, by omega⟩) x := by
  intro fuel
  induction fuel with
  | zero =>
    intro i hi1 hij hfuel
    omega
  | succ f ih =>
    intro i hi1 hij hfuel
    unfold lut_loop
    have hi10 : i < 10 := by omega
    rw [dif_pos hi10]
    by_cases hx : x < X ⟨i, hi10⟩
    · rw [if_pos hx]
      have hij' : i = j := by
        by_contra hne
        have hij2 : i < j := lt_of_le_of_ne hij hne
        have hle : X ⟨i, hi10⟩ ≤ X ⟨j - 1, by omega⟩ := by
          rcases Nat.lt_or_ge i (j - 1) with hlt | hge
          · exact le_of_lt (hmono _ _ (Fin.mk_lt_mk.mpr hlt))
          · have hieq : i = j - 1 := by omega
            subst hieq
            rfl
        exact absurd hx (not_lt.mpr (le_trans hle hseg1))
      subst hij'
      rfl
    · rw [if_neg hx]
      have hne : i ≠ j := by
        intro he
        subst he
        exact hx hseg2
      exact ih (i + 1) (by omega) (by omega) (by omega)

/-- The whole lookup, for a strictly in-range query sitting in segment
`[X (j-1), X j)`, interpolates over that segment. -/
lemma lin_lookup_seg (X Y : Fin 10 → ℚ) (x : ℚ)
    (hmono : ∀ a b : Fin 10, a < b → X a < X b)
    (j : ℕ) (hj1 : 1 ≤ j) (hj9 : j ≤ 9)
    (hseg1 : X ⟨j - 1, by omega⟩ ≤ x) (hseg2 : x < X ⟨j, by omega⟩)
    (h0 : X 0 < x) :
    lin_lookup X Y x = interp (X ⟨j - 1, by omega⟩) (Y ⟨j - 1, by omega⟩)
      (X ⟨j, by omega⟩) (Y ⟨j, by omega⟩) x := by
  have h99 : ((⟨9, by omega⟩ : Fin 10)) = 9 := rfl
  have hx9 : x < X 9 := by
    rcases Nat.lt_or_ge j 9 with hlt | hge
    · have hlt2 : X ⟨j, by omega⟩ ≤ X 9 := by
        rw [← h99]
        exact le_of_lt (hmono _ _ (Fin.mk_lt_mk.mpr hlt))
      exact lt_of_lt_of_le hseg2 hlt2
    · have hj9' : j = 9 := by omega
      subst hj9'
      rw [← h99]
      exact hseg2
  unfold lin_lookup
  rw [if_neg (not_le.mpr h0), if_neg (not_le.mpr hx9)]
  exact lut_loop_seg X Y x hmono j hj1 hj9 hseg1 hseg2 9 1 (by omega) (by omega) (by omega)

end JBclone

namespace JBclone

/-- For a table strictly increasing on both axes, the two lookups are
exact inverses on the covered range (`A` is the query axis of the inner
lookup, `B` its result axis). -/
theorem cal_roundtrip_exact (A B : Fin 10 → ℚ)
    (hA : ∀ a b : Fin 10, a < b → A a < A b)
    (hB : ∀ a b : Fin 10, a < b → B a < B b)
    (t : ℚ) (h0 : A 0 ≤ t) (h9 : t ≤ A 9) :
    lin_lookup B A (lin_lookup A B t) = t := by
  by_cases ht0 : t ≤ A 0
  · have hteq : t = A 0 := le_antisymm ht0 h0
    have hinner : lin_lookup A B t = B 0 := by
      unfold lin_lookup
      rw [if_pos ht0, hteq, interp_left]
    have houter : lin_lookup B A (B 0) = A 0 := by
      unfold lin_lookup
      rw [if_pos (le_refl (B 0)), interp_left]
    rw [hinner, houter, hteq]
  · by_cases ht9 : t ≥ A 9
    · have hteq : t = A 9 := le_antisymm h9 ht9
      have h89A : A 8 < A 9 := hA 8 9 (by decide)
      have h89B : B 8 < B 9 := hB 8 9 (by decide)
      have hinner : lin_lookup A B t = B 9 := by
        unfold lin_lookup
        rw [if_neg ht0, if_pos ht9, hteq,
          interp_right _ _ _ _ (by linarith : A 9 - A 8 ≠ 0)]
      have houter : lin_lookup B A (B 9) = A 9 := by
        unfold lin_lookup
        have hb0 : ¬(B 9 ≤ B 0) := not_le.mpr (hB 0 9 (by decide))
        rw [if_neg hb0, if_pos (le_refl (B 9)),
          interp_right _ _ _ _ (by linarith : B 9 - B 8 ≠ 0)]
      rw [hinner, houter, hteq]
    · have h0' : A 0 < t := not_le.mp ht0
      have h9' : t < A 9 := not_le.mp ht9
      have hne : (Finset.univ.filter (fun m : Fin 10 => 1 ≤ (m : ℕ) ∧ t < A m)).Nonempty := by
        refine ⟨9, ?_⟩
        rw [Finset.mem_filter]
        refine ⟨Finset.mem_univ _, ?_, h9'⟩
        show 1 ≤ ((9 : Fin 10) : ℕ)
        omega
      obtain ⟨j0, hj0one, hj0lt, hj0min⟩ :
          ∃ j0 : Fin 10, 1 ≤ (j0 : ℕ) ∧ t < A j0 ∧
            ∀ m : Fin 10, 1 ≤ (m : ℕ) → t < A m → (j0 : ℕ) ≤ (m : ℕ) := by
        refine ⟨(Finset.univ.filter (fun m : Fin 10 => 1 ≤ (m : ℕ) ∧ t < A m)).min' hne,
          ?_, ?_, ?_⟩
        · have hmem := Finset.min'_mem _ hne
          rw [Finset.mem_filter] at hmem
          exact hmem.2.1
        · have hmem := Finset.min'_mem _ hne
          rw [Finset.mem_filter] at hmem
          exact hmem.2.2
        · intro m hm1 hm2
          have hmmem : m ∈ Finset.univ.filter (fun m : Fin 10 => 1 ≤ (m : ℕ) ∧ t < A m) := by
            rw [Finset.mem_filter]
            exact ⟨Finset.mem_univ _, hm1, hm2⟩
          exact Finset.min'_le _ _ hmmem
      have hj9 : (j0 : ℕ) ≤ 9 := Fin.is_le j0
      have hseg2 : t < A ⟨(j0 : ℕ), by omega⟩ := by
        have heta : ((⟨(j0 : ℕ), by omega⟩ : Fin 10)) = j0 := rfl
        rw [heta]
        exact hj0lt
      have hseg1 : A ⟨(j0 : ℕ) - 1, by omega⟩ ≤ t := by
        rcases Nat.eq_or_lt_of_le hj0one with h1 | h1
        · have hidx : ((⟨(j0 : ℕ) - 1, by omega⟩ : Fin 10)) = 0 := by
            apply Fin.ext
            show (j0 : ℕ) - 1 = 0
            omega
          rw [hidx]
          exact h0'.le
        · by_contra hlt
          push_neg at hlt
          have hvle : (j0 : ℕ) ≤ ((⟨(j0 : ℕ) - 1, by omega⟩ : Fin 10) : ℕ) :=
            hj0min _ (by show 1 ≤ (j0 : ℕ) - 1; omega) hlt
          have hval : ((⟨(j0 : ℕ) - 1, by omega⟩ : Fin 10) : ℕ) = (j0 : ℕ) - 1 := rfl
          omega
      have hfinlt : (⟨(j0 : ℕ) - 1, by omega⟩ : Fin 10) < ⟨(j0 : ℕ), by omega⟩ :=
        Fin.mk_lt_mk.mpr (by omega)
      have hjltA : A ⟨(j0 : ℕ) - 1, by omega⟩ < A ⟨(j0 : ℕ), by omega⟩ := hA _ _ hfinlt
      have hjltB : B ⟨(j0 : ℕ) - 1, by omega⟩ < B ⟨(j0 : ℕ), by omega⟩ := hB _ _ hfinlt
      have hinner := lin_lookup_seg A B t hA (j0 : ℕ) hj0one hj9 hseg1 hseg2 h0'
      have hvlb : B ⟨(j0 : ℕ) - 1, by omega⟩
          ≤ interp (A ⟨(j0 : ℕ) - 1, by omega⟩) (B ⟨(j0 : ℕ) - 1, by omega⟩)
              (A ⟨(j0 : ℕ), by omega⟩) (B ⟨(j0 : ℕ), by omega⟩) t :=
        interp_lb _ _ _ _ _ hjltA hjltB hseg1
      have hvub : interp (A ⟨(j0 : ℕ) - 1, by omega⟩) (B ⟨(j0 : ℕ) - 1, by omega⟩)
              (A ⟨(j0 : ℕ), by omega⟩) (B ⟨(j0 : ℕ), by omega⟩) t
          < B ⟨(j0 : ℕ), by omega⟩ :=
        interp_ub _ _ _ _ _ hjltA hjltB hseg2
      have hv0 : B 0 < interp (A ⟨(j0 : ℕ) - 1, by omega⟩) (B ⟨(j0 : ℕ) - 1, by omega⟩)
          (A ⟨(j0 : ℕ), by omega⟩) (B ⟨(j0 : ℕ), by omega⟩) t := by
        rcases Nat.eq_or_lt_of_le hj0one with h1 | h1
        · have hidx : ((⟨(j0 : ℕ) - 1, by omega⟩ : Fin 10)) = 0 := by
            apply Fin.ext
            show (j0 : ℕ) - 1 = 0
            omega
          rw [hidx]
          refine interp_lb_strict _ _ _ _ _ ?_ ?_ h0'
          · rw [← hidx]
            exact hjltA
          · rw [← hidx]
            exact hjltB
        · have hlt0 : (0 : Fin 10) < ⟨(j0 : ℕ) - 1, by omega⟩ := by
            have h00 : ((0 : Fin 10)) = ⟨0, by omega⟩ := rfl
            rw [h00]
            exact Fin.mk_lt_mk.mpr (by omega)
          have := hB _ _ hlt0
          linarith
      have houter := lin_lookup_seg B A
        (interp (A ⟨(j0 : ℕ) - 1, by omega⟩) (B ⟨(j0 : ℕ) - 1, by omega⟩)
          (A ⟨(j0 : ℕ), by omega⟩) (B ⟨(j0 : ℕ), by omega⟩) t)
        hB (j0 : ℕ) hj0one hj9 hvlb hvub hv0
      rw [hinner, houter]
      exact interp_inv _ _ _ _ _ (by linarith : A ⟨(j0 : ℕ), by omega⟩
          - A ⟨(j0 : ℕ) - 1, by omega⟩ ≠ 0)
        (by linarith : B ⟨(j0 : ℕ), by omega⟩ - B ⟨(j0 : ℕ) - 1, by omega⟩ ≠ 0)

end JBclone

namespace JBclone

/-- CLAIM C6 (amended): for a calibration table whose 10 entries are
STRICTLY increasing in both columns (non-decreasing is not enough, see the
counterexample), and any `t` with `table[0].t ≤ t ≤ table[9].t`, the
round trip `tcv_to_temp(temp_to_tcv(t))` differs from `t` by less than
`10⁻³` — in the exact-arithmetic model it is in fact exactly `t`. -/
theorem c6_amended_roundtrip (tbl : Fin 10 → ℚ × ℚ)
    (hV : ∀ a b : Fin 10, a < b → (tbl a).1 < (tbl b).1)
    (hT : ∀ a b : Fin 10, a < b → (tbl a).2 < (tbl b).2)
    (t : ℚ) (h0 : (tbl 0).2 ≤ t) (h9 : t ≤ (tbl 9).2) :
    |tcv_to_temp tbl (temp_to_tcv tbl t) - t| < 1 / 1000 := by
  have hexact : lin_lookup (fun i => (tbl i).1) (fun i => (tbl i).2)
      (lin_lookup (fun i => (tbl i).2) (fun i => (tbl i).1) t) = t :=
    cal_roundtrip_exact (fun i => (tbl i).2) (fun i => (tbl i).1) hT hV t h0 h9
  unfold tcv_to_temp temp_to_tcv
  rw [hexact, sub_self, abs_zero]
  norm_num

/-- Witness for the amended C6: the strictly increasing default-style table
`tblW` at `t = 75 °C` round-trips within `10⁻³`. -/
theorem c6_amended_roundtrip_witness :
    ((∀ a b : Fin 10, a < b → (tblW a).1 < (tblW b).1) ∧
     (∀ a b : Fin 10, a < b → (tblW a).2 < (tblW b).2) ∧
     (tblW 0).2 ≤ 75 ∧ (75 : ℚ) ≤ (tblW 9).2) ∧
    |tcv_to_temp tblW (temp_to_tcv tblW 75) - 75| < 1 / 1000 :=
  ⟨⟨by with_unfolding_all decide, by with_unfolding_all decide,
    by with_unfolding_all decide, by with_unfolding_all decide⟩,
    c6_amended_roundtrip tblW (by with_unfolding_all decide) (by with_unfolding_all decide)
      75 (by with_unfolding_all decide) (by with_unfolding_all decide)⟩

/-- A calibration table that is monotonically non-decreasing in both
columns but has a flat voltage segment: V = 0,10,10,20,…,80 and
T = 0,1,2,…,9. -/
def tblC6 : Fin 10 → ℚ × ℚ := fun i =>
  (if (i : ℕ) ≤ 1 then ((i : ℕ) : ℚ) * 10 else (((i : ℕ) : ℚ) - 1) * 10, ((i : ℕ) : ℚ))

/-- Counterexample to C6 as stated: `tblC6` is non-decreasing in both
columns and `t = 1.5` lies inside `[table[0].t, table[9].t]`, yet
`temp_to_tcv(1.5) = 10` (the flat segment collapses) and
`tcv_to_temp(10) = 2`, so the round trip misses `t` by `0.5 ≥ 10⁻³`. -/
theorem c6_counterexample :
    (∀ a b : Fin 10, a < b → (tblC6 a).1 ≤ (tblC6 b).1) ∧
    (∀ a b : Fin 10, a < b → (tblC6 a).2 ≤ (tblC6 b).2) ∧
    (tblC6 0).2 ≤ 3 / 2 ∧ (3 / 2 : ℚ) ≤ (tblC6 9).2 ∧
    ¬(|tcv_to_temp tblC6 (temp_to_tcv tblC6 (3 / 2)) - 3 / 2| < 1 / 1000) := by
  with_unfolding_all decide

end JBclone
